import Mathlib

/-!
Shallow embedding of the data layer of the RD_Dashboard_MVP repository
(src/data/cache_utils.py, src/data/crypto_data.py, src/data/traditional_data.py)
and proofs about the fetch-and-degrade policy and the indicator computations.

Conventions used throughout:
* Python floats are modelled as exact rationals (`ℚ`). `round(x, 2)` is
  modelled as round-half-to-even on `x * 100`, matching Python's rounding mode.
* Wall-clock instants (`datetime.now()`) are modelled as a single `Nat` value
  `now` per wrapper invocation, in seconds.
* A fallible Python call is modelled as an `Except` value: `Except.error`
  stands for a raised exception, `Except.ok` for a normal return.
* Randomness (`random.uniform`, `np.random....`) is modelled by injected
  streams of draws: one function per call site, indexed by the loop counter.
-/

/-- One cached item, as stored by `cache_utils.cache_data`:
`{'data': result, 'created_at': now, 'expires_at': now + ttl}`. -/
structure CacheEntry (α : Type) where
  data : α
  created_at : Nat
  expires_at : Nat
deriving DecidableEq

/-- Observable outcome of one pass through the `cache_data` wrapper:
the value returned (or the exception re-raised), the cache entry for the key
after the call, and whether the wrapped function was invoked. -/
structure WrapOutcome (α ε : Type) where
  result : Except ε α
  state : Option (CacheEntry α)
  calledFetch : Bool

/-- The `try ... except` body of the `cache_data` wrapper (cache_utils.py,
lines 30-50): run the wrapped function; on success store
`{'data': result, 'expires_at': now + ttl}`; on exception return the expired
entry when one exists, otherwise re-raise (`raise e`). -/
def fetch_or_degrade {α ε : Type} (ttl : Nat) (fetch : Except ε α)
    (state : Option (CacheEntry α)) (now : Nat) : WrapOutcome α ε :=
  match fetch with
  | .ok r => ⟨.ok r, some ⟨r, now, now + ttl⟩, true⟩
  | .error e =>
    match state with
    | some entry => ⟨.ok entry.data, some entry, true⟩
    | none => ⟨.error e, none, true⟩

/-- The full `cache_data(ttl)` wrapper (cache_utils.py, lines 17-52):
if an entry exists and `now < expires_at`, return the cached data without
calling the wrapped function; otherwise fall through to `fetch_or_degrade`.
`fetch` is the outcome the wrapped function would produce at this instant. -/
def cache_wrapper {α ε : Type} (ttl : Nat) (fetch : Except ε α)
    (state : Option (CacheEntry α)) (now : Nat) : WrapOutcome α ε :=
  match state with
  | some entry =>
    if now < entry.expires_at then ⟨.ok entry.data, some entry, false⟩
    else fetch_or_degrade ttl fetch state now
  | none => fetch_or_degrade ttl fetch state now

/-! ### Indicator engine (crypto_data.py) -/

/-- `np.diff`: successive differences of a price list. -/
def diffs : List ℚ → List ℚ
  | [] => []
  | [_] => []
  | x :: y :: rest => (y - x) :: diffs (y :: rest)

/-- `np.mean` of a list: sum divided by length. `np.mean([])` is `nan`,
which `ℚ` cannot represent (the Lean convention gives `l.sum / 0 = 0`);
every theorem below therefore only applies `mean` to non-empty lists
(RSI statements carry a `1 ≤ period` hypothesis guaranteeing this). -/
def mean (l : List ℚ) : ℚ := l.sum / l.length

/-- Python slice `l[-n:]`: the last `n` elements of `l` — except at `n = 0`,
where `-0 == 0` makes `l[-0:]` the whole list. -/
def lastN (n : Nat) (l : List ℚ) : List ℚ :=
  if n = 0 then l else l.drop (l.length - n)

/-- `np.where(deltas > 0, deltas, 0)` applied to the diffs of a price list. -/
def gains_of (prices : List ℚ) : List ℚ :=
  (diffs prices).map (fun d => if 0 < d then d else 0)

/-- `np.where(deltas < 0, -deltas, 0)` applied to the diffs of a price list. -/
def losses_of (prices : List ℚ) : List ℚ :=
  (diffs prices).map (fun d => if d < 0 then -d else 0)

/-- `avg_gain = np.mean(gains[-period:])` in `calculate_rsi`. -/
def avgGain (prices : List ℚ) (period : Nat) : ℚ :=
  mean (lastN period (gains_of prices))

/-- `avg_loss = np.mean(losses[-period:])` in `calculate_rsi`. -/
def avgLoss (prices : List ℚ) (period : Nat) : ℚ :=
  mean (lastN period (losses_of prices))

/-- Round-half-to-even to an integer, the rounding mode of Python's `round`. -/
def roundHalfEven (x : ℚ) : ℤ :=
  let f := Int.floor x
  let r := x - f
  if r < 1 / 2 then f
  else if 1 / 2 < r then f + 1
  else if f % 2 = 0 then f else f + 1

/-- Python's `round(x, 2)`. -/
def pyround2 (x : ℚ) : ℚ := (roundHalfEven (x * 100) : ℚ) / 100

/-- `CryptoDataFetcher.calculate_rsi` (crypto_data.py, lines 51-64):
`None` when fewer than `period + 1` prices are available; `100` when the
average loss over the trailing `period` deltas is zero; otherwise
`round(100 - 100 / (1 + avg_gain / avg_loss), 2)`. -/
def calculate_rsi (prices : List ℚ) (period : Nat) : Option ℚ :=
  if prices.length < period + 1 then none
  else if avgLoss prices period = 0 then some 100
  else some (pyround2 (100 - 100 / (1 + avgGain prices period / avgLoss prices period)))

/-- The window of points averaged at index `i` by
`rolling(window=w, min_periods=1)`: the last `min w (i+1)` prices ending
at index `i`. -/
def windowSlice (w i : Nat) (xs : List ℚ) : List ℚ :=
  (xs.take (i + 1)).drop (i + 1 - w)

/-- `series.rolling(window=w, min_periods=1).mean()` (crypto_data.py,
lines 39-42): one output per input position, the mean of the trailing window
(partial windows allowed from the first point on). -/
def rolling_mean (w : Nat) (xs : List ℚ) : List ℚ :=
  (List.range xs.length).map (fun i => mean (windowSlice w i xs))

/-- Minimum of a list (0 on the empty list, which never arises below). -/
def listMin : List ℚ → ℚ
  | [] => 0
  | x :: xs =>
    match xs with
    | [] => x
    | _ :: _ => min x (listMin xs)

/-- Maximum of a list (0 on the empty list, which never arises below). -/
def listMax : List ℚ → ℚ
  | [] => 0
  | x :: xs =>
    match xs with
    | [] => x
    | _ :: _ => max x (listMax xs)

/-! ### Funding rates (crypto_data.py, `get_funding_rates_7d_avg`) -/

/-- The dictionary `{'BTC': ..., 'ETH': ...}` returned by
`get_funding_rates_7d_avg`: exactly these two keys. -/
structure FundingRates where
  btc : ℚ
  eth : ℚ
deriving DecidableEq

/-- Outcome of the two Binance requests inside `get_funding_rates_7d_avg`:
either some exception was raised while fetching or parsing (network error,
non-2xx status, malformed item), or both funding-rate lists were obtained. -/
inductive FundingOutcome
  | failure
  | rates (btc eth : List ℚ)

/-- `{'BTC': btc_avg * 100 * 24 * 365, ...}`: the annualization factor
applied in the source. -/
def annualized (avg : ℚ) : ℚ := avg * 100 * 24 * 365

/-- Body of `CryptoDataFetcher.get_funding_rates_7d_avg` (crypto_data.py,
lines 79-105): every exception is caught and converted to
`{'BTC': 0, 'ETH': 0}`; on success each average is
`sum(rates) / len(rates) if rates else 0`, annualized. -/
def get_funding_rates_body (o : FundingOutcome) : FundingRates :=
  match o with
  | .failure => ⟨0, 0⟩
  | .rates btc eth =>
    let btc_avg := if btc = [] then 0 else btc.sum / btc.length
    let eth_avg := if eth = [] then 0 else eth.sum / eth.length
    ⟨annualized btc_avg, annualized eth_avg⟩

/-! ### DXY data (traditional_data.py) -/

/-- The random draws consumed by `_get_mock_dxy_data`, one stream per call
site, indexed by the loop counter `i`:
`base_dxy = random.uniform(103.5, 104.8)`,
`period_length = random.randint(5, 12)`,
`uniform1 = random.uniform(-0.15, 0.15)`,
`spike = (random.random() < 0.05)`, `spikeMul = random.uniform(2.0, 4.0)`,
`noise = random.uniform(-0.05, 0.05)`. -/
structure DxyRand where
  base_dxy : ℚ
  period_length : Nat → Nat
  uniform1 : Nat → ℚ
  spike : Nat → Bool
  spikeMul : Nat → ℚ
  noise : Nat → ℚ

/-- The fixed `trend_patterns` table of `_get_mock_dxy_data`. -/
def trend_patterns : List ℚ :=
  [8/10, -3/10, 12/10, -6/10, 5/10, -9/10, 11/10, -4/10, 7/10, -8/10]

/-- One iteration of the `_get_mock_dxy_data` loop (traditional_data.py,
lines 169-225). `acc` is the list `dxy_values[0..i-1]` built so far. The
result is clamped to `[95, 110]` by `max(95.0, min(110.0, new_value))`. -/
def mock_dxy_step (r : DxyRand) (i : Nat) (acc : List ℚ) : ℚ :=
  let period_index := i / r.period_length i
  let trend_bias := trend_patterns.getD (period_index % trend_patterns.length) 0
  let base_change0 := r.uniform1 i * trend_bias
  let base_change1 :=
    if 0 < i then
      let prev := acc.getD (i - 1) 0
      let prev2 := if 1 < i then acc.getD (i - 2) 0 else r.base_dxy
      let prev_change := prev - prev2
      let momentum_factor : ℚ := if 1/10 < |prev_change| then 4/10 else 2/10
      base_change0 + momentum_factor * prev_change
    else base_change0
  let base_change2 := if r.spike i then base_change1 * r.spikeMul i else base_change1
  let daily_change := base_change2 + r.noise i
  let prevVal := if i = 0 then r.base_dxy else acc.getD (i - 1) 0
  max 95 (min 110 (prevVal + daily_change))

/-- The `dxy_values` list produced by `_get_mock_dxy_data` for a given number
of days (the loop `for i in range(days)` appending one clamped value per
iteration). -/
def mock_dxy_values (r : DxyRand) : Nat → List ℚ
  | 0 => []
  | n + 1 =>
    let acc := mock_dxy_values r n
    acc ++ [mock_dxy_step r n acc]

/-- One entry of the Alpha Vantage `"Time Series (Daily)"` payload as
`get_dxy_data` consumes it: whether its date falls inside the requested
window, and the parsed `"4. close"` value — `none` models a value on which
`float(values["4. close"])` raises (missing key or non-numeric string).
Dates themselves are abstracted away: the claims proved below do not depend
on the ordering of the rows. -/
structure DxyEntry where
  inWindow : Bool
  close : Option ℚ

/-- Outcome of the Alpha Vantage request in `get_dxy_data`: a raised
`requests.RequestException` (timeout, HTTP error), or a payload. -/
inductive DxyOutcome
  | netError
  | payload (entries : List DxyEntry)

/-- The parsing loop of `get_dxy_data` (traditional_data.py, lines 146-159):
for each in-window entry compute
`(1 / close if close != 0 else 0) * 100`; a malformed close raises an
exception that `get_dxy_data` does not catch (it only catches
`requests.RequestException`). -/
def parse_dxy_entries : List DxyEntry → Except Unit (List ℚ)
  | [] => .ok []
  | e :: rest =>
    if e.inWindow then
      match e.close with
      | none => .error ()
      | some c =>
        match parse_dxy_entries rest with
        | .error u => .error u
        | .ok ps => .ok (((if c ≠ 0 then 1 / c else 0) * 100) :: ps)
    else parse_dxy_entries rest

/-- Body of `TraditionalDataFetcher.get_dxy_data` (traditional_data.py,
lines 141-167): on `requests.RequestException` fall back to
`_get_mock_dxy_data(days)`; on success parse the rows (a malformed row
raises through), and fall back to the mock data when no row survived. -/
def get_dxy_data_body (days : Nat) (o : DxyOutcome) (r : DxyRand) :
    Except Unit (List ℚ) :=
  match o with
  | .netError => .ok (mock_dxy_values r days)
  | .payload entries =>
    match parse_dxy_entries entries with
    | .error u => .error u
    | .ok prices => if prices = [] then .ok (mock_dxy_values r days) else .ok prices

/-- A live payload whose rows parse to exactly the given values:
row `v` carries close `100 / v`, so the parsed value is `v` again
(also when `v = 0`, by the source's zero-guard). Used to exhibit a live
response indistinguishable from the synthetic fallback. -/
def entries_of (vals : List ℚ) : List DxyEntry :=
  vals.map (fun v => ⟨true, some (100 / v)⟩)

/-- A concrete draw stream for the mock DXY generator: base 104, period
length 7, all uniforms zero, no spikes. Every generated value is 104. -/
def dxyRand0 : DxyRand :=
  ⟨104, fun _ => 7, fun _ => 0, fun _ => false, fun _ => 3, fun _ => 0⟩

/-! ### ETF flows (traditional_data.py) -/

/-- One record of a CoinGlass flow history. The source reads
`x['timestamp']`, `d.get('flow_usd', 0)`, `price_usd`. -/
structure FlowRecord where
  timestamp : Int
  flow_usd : ℚ
  price_usd : ℚ
deriving DecidableEq

/-- A CoinGlass flow-history response body as `get_etf_flows` consumes it:
`.get('code')`, `.get('msg')`, `.get('data', [])`. -/
structure FlowPayload where
  code : Option String
  msg : Option String
  data : List FlowRecord
deriving DecidableEq

/-- A CoinGlass ETF-list response body: `.get('code')` and the
`aum_usd` figures of `.get('data', [])`. -/
structure ListPayload where
  code : Option String
  aums : List ℚ
deriving DecidableEq

/-- The summary dictionary built by `_compute_etf_summary`. -/
structure EtfSummary where
  net_flow_1d : ℚ
  net_flow_7d : ℚ
  change_pct : ℚ
  total_aum : ℚ
deriving DecidableEq

/-- One asset's `{'summary': ..., 'history': ...}` entry. -/
structure EtfSide where
  summary : EtfSummary
  history : List FlowRecord
deriving DecidableEq

/-- The `{'BTC': ..., 'ETH': ...}` dictionary returned by `get_etf_flows`. -/
structure EtfResult where
  btc : EtfSide
  eth : EtfSide
deriving DecidableEq

/-- `TraditionalDataFetcher._compute_etf_summary` (traditional_data.py,
lines 85-101): history is newest-first; `net_flow_1d` is the head flow,
`net_flow_7d` the sum of the first seven, `change_pct` the percent change
against the second record (0 when it is 0 or absent). -/
def compute_etf_summary (history : List FlowRecord) (total_aum : ℚ) : EtfSummary :=
  match history with
  | [] => ⟨0, 0, 0, total_aum⟩
  | h0 :: rest =>
    let net_flow_1d := h0.flow_usd
    let net_flow_7d := (((h0 :: rest).take 7).map (fun d => d.flow_usd)).sum
    let prev_flow := match rest with | [] => 0 | h1 :: _ => h1.flow_usd
    let change_pct :=
      if prev_flow ≠ 0 then (net_flow_1d - prev_flow) / |prev_flow| * 100 else 0
    ⟨net_flow_1d, net_flow_7d, change_pct, total_aum⟩

/-- Insertion step of a stable sort by timestamp descending. -/
def insertByTsDesc (a : FlowRecord) : List FlowRecord → List FlowRecord
  | [] => [a]
  | b :: bs =>
    if b.timestamp ≤ a.timestamp then a :: b :: bs else b :: insertByTsDesc a bs

/-- `sorted(history, key=lambda x: x['timestamp'], reverse=True)`. -/
def sortFlowDesc : List FlowRecord → List FlowRecord
  | [] => []
  | a :: rest => insertByTsDesc a (sortFlowDesc rest)

/-- The random draws consumed by `_get_mock_etf_flows`, indexed oldest-first
over the 60 generated business days. -/
structure EtfRand where
  btcFlow : Nat → ℚ
  btcPrice : Nat → ℚ
  ethFlow : Nat → ℚ
  ethPrice : Nat → ℚ
  btcAum : ℚ
  ethAum : ℚ
  ts : Nat → Int

/-- One mock history of `_get_mock_etf_flows`: 60 records built oldest-first
and then reversed (`[::-1]`, newest first). -/
def mock_etf_history (flow price : Nat → ℚ) (ts : Nat → Int) : List FlowRecord :=
  ((List.range 60).map (fun i => FlowRecord.mk (ts i) (flow i) (price i))).reverse

/-- `TraditionalDataFetcher._get_mock_etf_flows` (traditional_data.py,
lines 103-139): 60-day mock histories for BTC and ETH plus their summaries. -/
def mock_etf_flows (r : EtfRand) : EtfResult :=
  let btc_history := mock_etf_history r.btcFlow r.btcPrice r.ts
  let eth_history := mock_etf_history r.ethFlow r.ethPrice r.ts
  ⟨⟨compute_etf_summary btc_history r.btcAum, btc_history⟩,
   ⟨compute_etf_summary eth_history r.ethAum, eth_history⟩⟩

/-- Outcome of the CoinGlass requests in `get_etf_flows`: a raised
`requests.RequestException` somewhere in the sequence, or the four decoded
response bodies (BTC flow, ETH flow, BTC list, ETH list). -/
inductive EtfOutcome
  | netError
  | payloads (btcFlow ethFlow : FlowPayload) (btcList ethList : ListPayload)

/-- Body of `TraditionalDataFetcher.get_etf_flows` (traditional_data.py,
lines 21-83): after fetching both flow histories, only the BTC payload is
checked for `code == '400' and msg == 'Upgrade plan'` (mock fallback);
otherwise AUMs are summed for lists whose code is `'0'`, histories are
sorted newest-first, and summaries computed. `requests.RequestException`
anywhere falls back to the mock data. -/
def get_etf_flows_body (o : EtfOutcome) (r : EtfRand) : EtfResult :=
  match o with
  | .netError => mock_etf_flows r
  | .payloads bf ef bl el =>
    if bf.code = some "400" ∧ bf.msg = some "Upgrade plan" then mock_etf_flows r
    else
      let btc_total_aum := if bl.code = some "0" then bl.aums.sum else 0
      let eth_total_aum := if el.code = some "0" then el.aums.sum else 0
      let btc_history := sortFlowDesc bf.data
      let eth_history := sortFlowDesc ef.data
      ⟨⟨compute_etf_summary btc_history btc_total_aum, btc_history⟩,
       ⟨compute_etf_summary eth_history eth_total_aum, eth_history⟩⟩

/-- A flow payload carrying the CoinGlass upgrade-plan signal (such payloads
carry no data rows). -/
def upgradeFlowPayload : FlowPayload := ⟨some "400", some "Upgrade plan", []⟩

/-- An ordinary successful flow payload (empty history for concreteness). -/
def okFlowPayload : FlowPayload := ⟨some "0", none, []⟩

/-- An ordinary successful ETF-list payload with no funds. -/
def emptyListPayload : ListPayload := ⟨some "0", []⟩

/-- A concrete draw stream for the mock ETF generator: all draws zero. -/
def etfRand0 : EtfRand :=
  ⟨fun _ => 0, fun _ => 0, fun _ => 0, fun _ => 0, 0, 0, fun _ => 0⟩

/-! ### Theorems -/

/-- C2: if the live fetch raises and a stale entry exists, the wrapper returns
exactly the stale entry's stored value and leaves the entry unchanged — its
`expires_at` is not extended, so it stays stale. -/
theorem stale_fallback_returns_entry_unchanged {α ε : Type} (ttl now : Nat)
    (entry : CacheEntry α) (e : ε) (hstale : entry.expires_at ≤ now) :
    cache_wrapper ttl (Except.error e) (some entry) now =
      ⟨Except.ok entry.data, some entry, true⟩ := by
  unfold cache_wrapper fetch_or_degrade
  simp [Nat.not_lt.mpr hstale]

/-- Witness for `stale_fallback_returns_entry_unchanged` at a concrete stale
entry: TTL 300, entry expired at 10, request at instant 10. -/
theorem stale_fallback_returns_entry_unchanged_witness :
    (10 : Nat) ≤ 10 ∧
      cache_wrapper 300 (Except.error ()) (some ⟨(42 : ℚ), 0, 10⟩) 10 =
        ⟨Except.ok 42, some ⟨(42 : ℚ), 0, 10⟩, true⟩ :=
  ⟨by decide,
   stale_fallback_returns_entry_unchanged 300 10 ⟨(42 : ℚ), 0, 10⟩ () (by decide)⟩

/-- C3: with TTL 300, a first request on an empty cache performs the one live
fetch and stores an entry expiring at `t0 + 300`; a second request strictly
before expiry returns the cached value without invoking the wrapped function
and leaves the entry unchanged; a request at or after expiry invokes the
wrapped function a second time. -/
theorem ttl300_two_requests_one_fetch {α ε : Type} (v : α) (t0 t1 t2 : Nat)
    (h1 : t1 < t0 + 300) (h2 : t0 + 300 ≤ t2) :
    (cache_wrapper 300 (Except.ok (ε := ε) v) none t0).calledFetch = true ∧
    (cache_wrapper 300 (Except.ok (ε := ε) v) none t0).state =
      some ⟨v, t0, t0 + 300⟩ ∧
    (∀ fetch2 : Except ε α,
      (cache_wrapper 300 fetch2 (some ⟨v, t0, t0 + 300⟩) t1).calledFetch = false ∧
      (cache_wrapper 300 fetch2 (some ⟨v, t0, t0 + 300⟩) t1).result = Except.ok v ∧
      (cache_wrapper 300 fetch2 (some ⟨v, t0, t0 + 300⟩) t1).state =
        some ⟨v, t0, t0 + 300⟩) ∧
    (∀ fetch3 : Except ε α,
      (cache_wrapper 300 fetch3 (some ⟨v, t0, t0 + 300⟩) t2).calledFetch = true) := by
  refine ⟨rfl, rfl, ?_, ?_⟩
  · intro fetch2
    unfold cache_wrapper
    simp [h1]
  · intro fetch3
    unfold cache_wrapper fetch_or_degrade
    simp [Nat.not_lt.mpr h2]
    cases fetch3 with
    | ok r => simp
    | error e => simp

/-- Witness for `ttl300_two_requests_one_fetch`: first fetch at 0, second
request at 299 (fresh), third at 300 (expired). -/
theorem ttl300_two_requests_one_fetch_witness :
    ((299 : Nat) < 0 + 300 ∧ (0 : Nat) + 300 ≤ 300) ∧
    ((cache_wrapper 300 (Except.ok (ε := Unit) (5 : ℚ)) none 0).calledFetch = true ∧
    (cache_wrapper 300 (Except.ok (ε := Unit) (5 : ℚ)) none 0).state =
      some ⟨5, 0, 0 + 300⟩ ∧
    (∀ fetch2 : Except Unit ℚ,
      (cache_wrapper 300 fetch2 (some ⟨5, 0, 0 + 300⟩) 299).calledFetch = false ∧
      (cache_wrapper 300 fetch2 (some ⟨5, 0, 0 + 300⟩) 299).result = Except.ok 5 ∧
      (cache_wrapper 300 fetch2 (some ⟨5, 0, 0 + 300⟩) 299).state =
        some ⟨5, 0, 0 + 300⟩) ∧
    (∀ fetch3 : Except Unit ℚ,
      (cache_wrapper 300 fetch3 (some ⟨5, 0, 0 + 300⟩) 300).calledFetch = true)) :=
  ⟨⟨by decide, by decide⟩,
   ttl300_two_requests_one_fetch (5 : ℚ) 0 299 300 (by decide) (by decide)⟩

/-- C1 (amended): the wrapper propagates an error to its caller exactly when
the wrapped function itself raises AND no cache entry exists for the key; in
every other situation — fresh entry, stale entry, or a wrapped function that
absorbs its own failures — a well-formed result is returned. -/
theorem cache_wrapper_error_characterization {α ε : Type} (ttl now : Nat)
    (fetch : Except ε α) (state : Option (CacheEntry α)) (e : ε) :
    (cache_wrapper ttl fetch state now).result = Except.error e ↔
      state = none ∧ fetch = Except.error e := by
  cases state with
  | none =>
    cases fetch with
    | ok r => simp [cache_wrapper, fetch_or_degrade]
    | error e2 => simp [cache_wrapper, fetch_or_degrade]
  | some entry =>
    cases fetch with
    | ok r =>
      unfold cache_wrapper fetch_or_degrade
      by_cases h : now < entry.expires_at <;> simp [h]
    | error e2 =>
      unfold cache_wrapper fetch_or_degrade
      by_cases h : now < entry.expires_at <;> simp [h]

/-- Counterexample to C1 as stated: a malformed Alpha Vantage payload (one
in-window row whose close value cannot be parsed) makes `get_dxy_data` raise,
and with no cache entry for the key the `cache_data` wrapper re-raises the
exception to its caller instead of returning a degraded result. -/
theorem cache_wrapper_raises_on_malformed_payload :
    (cache_wrapper 3600
        (get_dxy_data_body 90 (DxyOutcome.payload [⟨true, none⟩]) dxyRand0)
        none 0).result = Except.error () := rfl

/-- C10: the 7-day funding-rate fetch never raises through the wrapper (its
body absorbs every exception); on success it returns the two annualized mean
rates under the keys BTC and ETH, on any failure exactly `{'BTC': 0,
'ETH': 0}` — and a genuine all-zero success is indistinguishable from a
failure by the returned value. -/
theorem funding_rates_total_and_zero_ambiguous :
    (∀ (o : FundingOutcome) (state : Option (CacheEntry FundingRates)) (now : Nat),
      ∃ v, (cache_wrapper 600 (Except.ok (ε := Unit) (get_funding_rates_body o))
        state now).result = Except.ok v) ∧
    get_funding_rates_body FundingOutcome.failure = ⟨0, 0⟩ ∧
    (∀ btc eth : List ℚ,
      get_funding_rates_body (FundingOutcome.rates btc eth) =
        ⟨annualized (if btc = [] then 0 else btc.sum / btc.length),
         annualized (if eth = [] then 0 else eth.sum / eth.length)⟩) ∧
    get_funding_rates_body (FundingOutcome.rates [0] [0]) =
      get_funding_rates_body FundingOutcome.failure := by
  refine ⟨?_, rfl, fun btc eth => rfl, ?_⟩
  · intro o state now
    cases state with
    | none => exact ⟨get_funding_rates_body o, rfl⟩
    | some entry =>
      unfold cache_wrapper fetch_or_degrade
      by_cases h : now < entry.expires_at
      · exact ⟨entry.data, by simp [h]⟩
      · exact ⟨get_funding_rates_body o, by simp [h]⟩
  · show get_funding_rates_body (FundingOutcome.rates [0] [0]) = ⟨0, 0⟩
    unfold get_funding_rates_body annualized
    norm_num

theorem roundHalfEven_bounds (x : ℚ) :
    Int.floor x ≤ roundHalfEven x ∧ roundHalfEven x ≤ Int.floor x + 1 := by
  simp only [roundHalfEven]
  split_ifs <;> omega

theorem pyround2_range (x : ℚ) (h0 : 0 ≤ x) (h1 : x < 100) :
    0 ≤ pyround2 x ∧ pyround2 x ≤ 100 := by
  obtain ⟨hlo, hhi⟩ := roundHalfEven_bounds (x * 100)
  have hf0 : 0 ≤ Int.floor (x * 100) := Int.floor_nonneg.mpr (by positivity)
  have hfu : Int.floor (x * 100) < 10000 := by
    rw [Int.floor_lt]
    push_cast
    linarith
  have hz0 : (0 : ℚ) ≤ (roundHalfEven (x * 100) : ℚ) := by exact_mod_cast le_trans hf0 hlo
  have hz1 : (roundHalfEven (x * 100) : ℚ) ≤ 10000 := by exact_mod_cast by omega
  unfold pyround2
  constructor
  · positivity
  · rw [div_le_iff₀ (by norm_num : (0 : ℚ) < 100)]
    linarith

theorem losses_of_nonneg (prices : List ℚ) : ∀ x ∈ losses_of prices, 0 ≤ x := by
  intro x hx
  unfold losses_of at hx
  obtain ⟨d, _, rfl⟩ := List.mem_map.mp hx
  split_ifs with h
  · linarith
  · exact le_refl 0

theorem gains_of_nonneg (prices : List ℚ) : ∀ x ∈ gains_of prices, 0 ≤ x := by
  intro x hx
  unfold gains_of at hx
  obtain ⟨d, _, rfl⟩ := List.mem_map.mp hx
  split_ifs with h
  · linarith
  · exact le_refl 0

theorem mean_nonneg_of (l : List ℚ) (h : ∀ x ∈ l, 0 ≤ x) : 0 ≤ mean l := by
  unfold mean
  have := List.sum_nonneg h
  positivity

theorem lastN_subset (n : Nat) (l : List ℚ) : ∀ x ∈ lastN n l, x ∈ l := by
  intro x hx
  unfold lastN at hx
  split_ifs at hx with h
  · exact hx
  · exact List.drop_subset _ _ hx

theorem avgLoss_nonneg (prices : List ℚ) (period : Nat) : 0 ≤ avgLoss prices period := by
  unfold avgLoss
  apply mean_nonneg_of
  intro x hx
  exact losses_of_nonneg prices x (lastN_subset _ _ x hx)

theorem avgGain_nonneg (prices : List ℚ) (period : Nat) : 0 ≤ avgGain prices period := by
  unfold avgGain
  apply mean_nonneg_of
  intro x hx
  exact gains_of_nonneg prices x (lastN_subset _ _ x hx)

theorem diffs_zero_of_const : ∀ (l : List ℚ), (∀ x ∈ l, ∀ y ∈ l, x = y) →
    ∀ d ∈ diffs l, d = 0 := by
  intro l
  induction l with
  | nil => intro _ d hd; simp [diffs] at hd
  | cons x xs ih =>
    intro hconst d hd
    cases xs with
    | nil => simp [diffs] at hd
    | cons y rest =>
      rw [diffs] at hd
      rcases List.mem_cons.mp hd with h | h
      · have hxy : x = y := hconst x (by simp) y (by simp)
        rw [h, ← hxy]
        ring
      · apply ih ?_ d h
        intro a ha b hb
        exact hconst a (List.mem_cons_of_mem _ ha) b (List.mem_cons_of_mem _ hb)

theorem avgLoss_eq_zero_of_const (prices : List ℚ) (p : Nat)
    (hconst : ∀ x ∈ prices, ∀ y ∈ prices, x = y) : avgLoss prices p = 0 := by
  unfold avgLoss mean
  have hall : ∀ x ∈ lastN p (losses_of prices), x = 0 := by
    intro x hx
    have hx2 : x ∈ losses_of prices := lastN_subset _ _ x hx
    unfold losses_of at hx2
    obtain ⟨d, hd, rfl⟩ := List.mem_map.mp hx2
    have hd0 : d = 0 := diffs_zero_of_const prices hconst d hd
    simp [hd0]
  rw [List.sum_eq_zero hall]
  simp

/-- C4 (amended): for every period `p ≥ 1` (the model of `[-period:]` and
`np.mean` is exact only there; Python's `period = 0` hits the `-0 == 0`
slice quirk and `np.mean([]) = nan`), with at least `period + 1` prices
`calculate_rsi` returns a value in `[0, 100]`; it returns exactly 100
whenever the average loss over the trailing period deltas is 0 — in
particular a flat price series yields RSI 100, not a neutral 50. (The
converse direction of the claim's "if and only if" fails: see the
counterexample, where two-decimal rounding returns 100 with a positive
average loss.) -/
theorem rsi_range_and_flat_series (prices : List ℚ) (p : Nat) (hp : 1 ≤ p)
    (h : p + 1 ≤ prices.length) :
    (∃ r, calculate_rsi prices p = some r ∧ 0 ≤ r ∧ r ≤ 100) ∧
    (avgLoss prices p = 0 → calculate_rsi prices p = some 100) ∧
    ((∀ x ∈ prices, ∀ y ∈ prices, x = y) → calculate_rsi prices p = some 100) := by
  have hnl : ¬ prices.length < p + 1 := by omega
  refine ⟨?_, ?_, ?_⟩
  · unfold calculate_rsi
    rw [if_neg hnl]
    by_cases h0 : avgLoss prices p = 0
    · rw [if_pos h0]
      exact ⟨100, rfl, by norm_num, by norm_num⟩
    · rw [if_neg h0]
      have hploss : 0 < avgLoss prices p :=
        lt_of_le_of_ne (avgLoss_nonneg prices p) (Ne.symm h0)
      have hrs : 0 ≤ avgGain prices p / avgLoss prices p :=
        div_nonneg (avgGain_nonneg prices p) (le_of_lt hploss)
      have h1 : (0 : ℚ) < 1 + avgGain prices p / avgLoss prices p := by linarith
      have hfrac_pos : 0 < 100 / (1 + avgGain prices p / avgLoss prices p) :=
        div_pos (by norm_num) h1
      have hfrac_le : 100 / (1 + avgGain prices p / avgLoss prices p) ≤ 100 := by
        rw [div_le_iff₀ h1]
        nlinarith
      have hr0 : 0 ≤ 100 - 100 / (1 + avgGain prices p / avgLoss prices p) := by
        linarith
      have hr1 : 100 - 100 / (1 + avgGain prices p / avgLoss prices p) < 100 := by
        linarith
      obtain ⟨hb0, hb1⟩ := pyround2_range _ hr0 hr1
      exact ⟨_, rfl, hb0, hb1⟩
  · intro h0
    unfold calculate_rsi
    rw [if_neg hnl, if_pos h0]
  · intro hconst
    unfold calculate_rsi
    rw [if_neg hnl, if_pos (avgLoss_eq_zero_of_const prices p hconst)]

/-- Witness for `rsi_range_and_flat_series`: two prices, period 1. -/
theorem rsi_range_and_flat_series_witness :
    ((1 : Nat) ≤ 1 ∧ 1 + 1 ≤ ([1, 2] : List ℚ).length) ∧
    ((∃ r, calculate_rsi [1, 2] 1 = some r ∧ 0 ≤ r ∧ r ≤ 100) ∧
    (avgLoss [1, 2] 1 = 0 → calculate_rsi [1, 2] 1 = some 100) ∧
    ((∀ x ∈ ([1, 2] : List ℚ), ∀ y ∈ ([1, 2] : List ℚ), x = y) →
      calculate_rsi [1, 2] 1 = some 100)) :=
  ⟨⟨by decide, by decide⟩,
   rsi_range_and_flat_series [1, 2] 1 (by decide) (by decide)⟩

/-- Counterexample to C4's "exactly 100 if and only if the average loss is 0":
for prices `[100, 99, 100000099]` with period 2 the average loss is `1/2`,
yet the two-decimal rounding of `100 - 100/(1 + 10^8)` returns exactly 100. -/
theorem rsi_rounds_to_100_with_positive_loss :
    calculate_rsi [100, 99, 100000099] 2 = some 100 ∧
      avgLoss [100, 99, 100000099] 2 ≠ 0 := by
  have hloss : avgLoss [100, 99, 100000099] 2 = 1/2 := by
    norm_num [avgLoss, mean, lastN, losses_of, diffs]
  have hgain : avgGain [100, 99, 100000099] 2 = 50000000 := by
    norm_num [avgGain, mean, lastN, gains_of, diffs]
  constructor
  · unfold calculate_rsi
    rw [if_neg (by norm_num), if_neg (by rw [hloss]; norm_num)]
    rw [hloss, hgain]
    unfold pyround2 roundHalfEven
    norm_num
  · rw [hloss]
    norm_num

/-- C8: for every period `p ≥ 1`, simple-mode RSI on fewer than `p + 1`
prices returns the insufficient-data sentinel `None` (no numeric RSI), and
on at least `p + 1` prices it always returns a numeric value. -/
theorem rsi_insufficient_data_sentinel (p : Nat) (prices : List ℚ) (hp : 1 ≤ p) :
    (prices.length < p + 1 → calculate_rsi prices p = none) ∧
    (p + 1 ≤ prices.length → (calculate_rsi prices p).isSome = true) := by
  constructor
  · intro hlen
    unfold calculate_rsi
    rw [if_pos hlen]
  · intro hlen
    unfold calculate_rsi
    rw [if_neg (by omega)]
    by_cases h0 : avgLoss prices p = 0
    · rw [if_pos h0]; rfl
    · rw [if_neg h0]; rfl

/-- Witness for `rsi_insufficient_data_sentinel`: period 1 on the one-point
series `[4]` yields `None`. -/
theorem rsi_insufficient_data_sentinel_witness :
    (1 : Nat) ≤ 1 ∧ calculate_rsi [4] 1 = none :=
  ⟨by decide, (rsi_insufficient_data_sentinel 1 [4] (by decide)).1 (by decide)⟩

theorem listMin_le_mem : ∀ (l : List ℚ), ∀ a ∈ l, listMin l ≤ a := by
  intro l
  induction l with
  | nil => intro a ha; simp at ha
  | cons x xs ih =>
    intro a ha
    cases xs with
    | nil =>
      simp at ha
      simp [listMin, ha]
    | cons y rest =>
      rcases List.mem_cons.mp ha with h | h
      · rw [h, listMin]
        exact min_le_left _ _
      · calc listMin (x :: y :: rest) ≤ listMin (y :: rest) := min_le_right _ _
          _ ≤ a := ih a h

theorem mem_le_listMax : ∀ (l : List ℚ), ∀ a ∈ l, a ≤ listMax l := by
  intro l
  induction l with
  | nil => intro a ha; simp at ha
  | cons x xs ih =>
    intro a ha
    cases xs with
    | nil =>
      simp at ha
      simp [listMax, ha]
    | cons y rest =>
      rcases List.mem_cons.mp ha with h | h
      · rw [h, listMax]
        exact le_max_left _ _
      · calc a ≤ listMax (y :: rest) := ih a h
          _ ≤ listMax (x :: y :: rest) := le_max_right _ _

theorem mul_length_le_sum (l : List ℚ) (b : ℚ) (h : ∀ x ∈ l, b ≤ x) :
    (l.length : ℚ) * b ≤ l.sum := by
  induction l with
  | nil => simp
  | cons x xs ih =>
    have hx : b ≤ x := h x (by simp)
    have hxs : (xs.length : ℚ) * b ≤ xs.sum :=
      ih (fun y hy => h y (List.mem_cons_of_mem _ hy))
    simp only [List.length_cons, List.sum_cons]
    push_cast
    linarith

theorem sum_le_mul_length (l : List ℚ) (b : ℚ) (h : ∀ x ∈ l, x ≤ b) :
    l.sum ≤ (l.length : ℚ) * b := by
  induction l with
  | nil => simp
  | cons x xs ih =>
    have hx : x ≤ b := h x (by simp)
    have hxs : xs.sum ≤ (xs.length : ℚ) * b :=
      ih (fun y hy => h y (List.mem_cons_of_mem _ hy))
    simp only [List.length_cons, List.sum_cons]
    push_cast
    linarith

theorem listMin_le_mean (l : List ℚ) (h : l ≠ []) : listMin l ≤ mean l := by
  have hl : 0 < l.length := List.length_pos.mpr h
  have hcast : (0 : ℚ) < l.length := by exact_mod_cast hl
  unfold mean
  rw [le_div_iff₀ hcast]
  have := mul_length_le_sum l (listMin l) (listMin_le_mem l)
  linarith

theorem mean_le_listMax (l : List ℚ) (h : l ≠ []) : mean l ≤ listMax l := by
  have hl : 0 < l.length := List.length_pos.mpr h
  have hcast : (0 : ℚ) < l.length := by exact_mod_cast hl
  unfold mean
  rw [div_le_iff₀ hcast]
  have := sum_le_mul_length l (listMax l) (mem_le_listMax l)
  linarith

/-- C5: for every window `w ≥ 1` and non-empty price list, the rolling mean
with minimum-period 1 has the same length as the input; the value at index
`i` is the mean of the last `min w (i+1)` prices ending at `i` (never
null-padded), and it lies within the minimum and maximum of exactly those
points. -/
theorem rolling_mean_length_and_bounds (w : Nat) (xs : List ℚ)
    (hw : 1 ≤ w) (hne : xs ≠ []) :
    (rolling_mean w xs).length = xs.length ∧
    ∀ i, i < xs.length →
      (windowSlice w i xs).length = min w (i + 1) ∧
      (rolling_mean w xs).getD i 0 = mean (windowSlice w i xs) ∧
      listMin (windowSlice w i xs) ≤ (rolling_mean w xs).getD i 0 ∧
      (rolling_mean w xs).getD i 0 ≤ listMax (windowSlice w i xs) := by
  have hlen : (rolling_mean w xs).length = xs.length := by
    simp [rolling_mean]
  refine ⟨hlen, ?_⟩
  intro i hi
  have hslice_len : (windowSlice w i xs).length = min w (i + 1) := by
    unfold windowSlice
    rw [List.length_drop, List.length_take]
    omega
  have hget : (rolling_mean w xs).getD i 0 = mean (windowSlice w i xs) := by
    rw [List.getD_eq_getElem _ _ (by rw [hlen]; exact hi)]
    unfold rolling_mean
    simp
  have hne2 : windowSlice w i xs ≠ [] := by
    apply List.length_pos.mp
    rw [hslice_len]
    omega
  refine ⟨hslice_len, hget, ?_, ?_⟩
  · rw [hget]
    exact listMin_le_mean _ hne2
  · rw [hget]
    exact mean_le_listMax _ hne2

/-- Witness for `rolling_mean_length_and_bounds`: window 2 over `[1, 3, 2]`. -/
theorem rolling_mean_length_and_bounds_witness :
    ((1 : Nat) ≤ 2 ∧ ([1, 3, 2] : List ℚ) ≠ []) ∧
    ((rolling_mean 2 [1, 3, 2]).length = ([1, 3, 2] : List ℚ).length ∧
    ∀ i, i < ([1, 3, 2] : List ℚ).length →
      (windowSlice 2 i [1, 3, 2]).length = min 2 (i + 1) ∧
      (rolling_mean 2 [1, 3, 2]).getD i 0 = mean (windowSlice 2 i [1, 3, 2]) ∧
      listMin (windowSlice 2 i [1, 3, 2]) ≤ (rolling_mean 2 [1, 3, 2]).getD i 0 ∧
      (rolling_mean 2 [1, 3, 2]).getD i 0 ≤ listMax (windowSlice 2 i [1, 3, 2])) :=
  ⟨⟨by decide, by simp⟩,
   rolling_mean_length_and_bounds 2 [1, 3, 2] (by decide) (by simp)⟩

theorem mock_dxy_step_mem_Icc (r : DxyRand) (i : Nat) (acc : List ℚ) :
    95 ≤ mock_dxy_step r i acc ∧ mock_dxy_step r i acc ≤ 110 := by
  unfold mock_dxy_step
  constructor
  · exact le_max_left _ _
  · exact max_le (by norm_num) (min_le_left _ _)

theorem mock_dxy_values_length (r : DxyRand) :
    ∀ n, (mock_dxy_values r n).length = n := by
  intro n
  induction n with
  | zero => rfl
  | succ m ih => simp [mock_dxy_values, ih]

theorem mock_dxy_values_bounds (r : DxyRand) :
    ∀ n, ∀ x ∈ mock_dxy_values r n, 95 ≤ x ∧ x ≤ 110 := by
  intro n
  induction n with
  | zero => intro x hx; simp [mock_dxy_values] at hx
  | succ m ih =>
    intro x hx
    rw [mock_dxy_values] at hx
    rcases List.mem_append.mp hx with h | h
    · exact ih x h
    · rw [List.mem_singleton.mp h]
      exact mock_dxy_step_mem_Icc r m (mock_dxy_values r m)

/-- C6: when the live FX fetch raises a network error and no cache entry
exists, the call returns the synthetic mock DXY series, which contains
exactly `days` values, each clamped into the plausible range `[95, 110]`. -/
theorem dxy_mock_fallback_length_and_bounds (days : Nat) (r : DxyRand)
    (now : Nat) (h : 1 ≤ days) :
    (cache_wrapper 3600 (get_dxy_data_body days DxyOutcome.netError r)
        none now).result = Except.ok (mock_dxy_values r days) ∧
    (mock_dxy_values r days).length = days ∧
    (∀ x ∈ mock_dxy_values r days, 95 ≤ x ∧ x ≤ 110) :=
  ⟨rfl, mock_dxy_values_length r days, mock_dxy_values_bounds r days⟩

/-- Witness for `dxy_mock_fallback_length_and_bounds`: 3 days with the
concrete draw stream `dxyRand0`, requested at instant 0. -/
theorem dxy_mock_fallback_length_and_bounds_witness :
    (1 : Nat) ≤ 3 ∧
    ((cache_wrapper 3600 (get_dxy_data_body 3 DxyOutcome.netError dxyRand0)
        none 0).result = Except.ok (mock_dxy_values dxyRand0 3) ∧
    (mock_dxy_values dxyRand0 3).length = 3 ∧
    (∀ x ∈ mock_dxy_values dxyRand0 3, 95 ≤ x ∧ x ≤ 110)) :=
  ⟨by decide, dxy_mock_fallback_length_and_bounds 3 dxyRand0 0 (by decide)⟩

theorem parse_value_roundtrip (v : ℚ) :
    (if (100 / v) ≠ 0 then 1 / (100 / v) else 0) * 100 = v := by
  by_cases hv : v = 0
  · subst hv
    norm_num
  · rw [if_pos (div_ne_zero (by norm_num) hv)]
    field_simp

theorem parse_entries_of (vals : List ℚ) :
    parse_dxy_entries (entries_of vals) = Except.ok vals := by
  induction vals with
  | nil => rfl
  | cons v vs ih =>
    show parse_dxy_entries (⟨true, some (100 / v)⟩ :: entries_of vs) =
      Except.ok (v :: vs)
    rw [parse_dxy_entries, if_pos rfl, ih]
    show Except.ok ((if (100 / v) ≠ 0 then 1 / (100 / v) else 0) * 100 :: vs) =
      Except.ok (v :: vs)
    rw [parse_value_roundtrip]

/-- C7 (amended): the policy returns the bare series with no provenance flag;
a successful live fetch whose rows parse to exactly the synthetic values
produces a result identical to the synthetic fallback, so the caller cannot
distinguish live from synthetic data by inspecting the returned result. -/
theorem dxy_no_provenance_flag (days : Nat) (r : DxyRand) :
    get_dxy_data_body days
        (DxyOutcome.payload (entries_of (mock_dxy_values r days))) r =
      get_dxy_data_body days DxyOutcome.netError r := by
  simp only [get_dxy_data_body, parse_entries_of]
  by_cases h : mock_dxy_values r days = []
  · rw [if_pos h]
  · rw [if_neg h]

/-- Counterexample to C7 as stated: a concrete live Alpha Vantage success
(two well-formed rows) returns exactly the same value as the synthetic
fallback for a network failure — `Except.ok [104, 104]` in both cases — so
no provenance flag accompanies the result. -/
theorem dxy_live_result_equals_synthetic_result :
    get_dxy_data_body 2
        (DxyOutcome.payload [⟨true, some (25/26)⟩, ⟨true, some (25/26)⟩])
        dxyRand0 =
      get_dxy_data_body 2 DxyOutcome.netError dxyRand0 ∧
    get_dxy_data_body 2 DxyOutcome.netError dxyRand0 = Except.ok [104, 104] := by
  have hmock : mock_dxy_values dxyRand0 2 = [104, 104] := by
    norm_num [mock_dxy_values, mock_dxy_step, dxyRand0, trend_patterns]
  have hparse : parse_dxy_entries [⟨true, some (25/26)⟩, ⟨true, some (25/26)⟩] =
      Except.ok [104, 104] := by
    rw [parse_dxy_entries, if_pos rfl, parse_dxy_entries, if_pos rfl,
      parse_dxy_entries]
    norm_num
  constructor
  · simp [get_dxy_data_body, hparse, hmock]
  · simp [get_dxy_data_body, hmock]

/-- C9 (amended): a BTC flow payload carrying `code='400', msg='Upgrade plan'`
makes `get_etf_flows` return the synthetic mock ETF-flow result instead of
live data; only the BTC flow response is checked for this condition (the
counterexample shows the ETH response is not). -/
theorem etf_upgrade_checked_on_btc_response (bf ef : FlowPayload)
    (bl el : ListPayload) (r : EtfRand)
    (h : bf.code = some "400" ∧ bf.msg = some "Upgrade plan") :
    get_etf_flows_body (EtfOutcome.payloads bf ef bl el) r = mock_etf_flows r := by
  simp only [get_etf_flows_body]
  rw [if_pos h]

/-- Witness for `etf_upgrade_checked_on_btc_response`: the concrete
upgrade-plan BTC payload yields the mock result. -/
theorem etf_upgrade_checked_on_btc_response_witness :
    (upgradeFlowPayload.code = some "400" ∧
      upgradeFlowPayload.msg = some "Upgrade plan") ∧
    get_etf_flows_body
        (EtfOutcome.payloads upgradeFlowPayload okFlowPayload
          emptyListPayload emptyListPayload) etfRand0 = mock_etf_flows etfRand0 :=
  ⟨⟨rfl, rfl⟩,
   etf_upgrade_checked_on_btc_response upgradeFlowPayload okFlowPayload
     emptyListPayload emptyListPayload etfRand0 ⟨rfl, rfl⟩⟩

/-- Counterexample to C9's "for both the BTC and the ETH flow responses":
when only the ETH flow payload carries `code='400', msg='Upgrade plan'` (and
the BTC payload is normal), `get_etf_flows` does not fall back to the mock
data — it proceeds with an empty ETH history, while the mock ETH history has
60 records. -/
theorem etf_eth_upgrade_not_detected :
    (get_etf_flows_body
        (EtfOutcome.payloads okFlowPayload upgradeFlowPayload
          emptyListPayload emptyListPayload) etfRand0).eth.history = [] ∧
    (mock_etf_flows etfRand0).eth.history.length = 60 ∧
    get_etf_flows_body
        (EtfOutcome.payloads okFlowPayload upgradeFlowPayload
          emptyListPayload emptyListPayload) etfRand0 ≠ mock_etf_flows etfRand0 := by
  have h1 : (get_etf_flows_body
      (EtfOutcome.payloads okFlowPayload upgradeFlowPayload
        emptyListPayload emptyListPayload) etfRand0).eth.history = [] := by
    simp [get_etf_flows_body, okFlowPayload, upgradeFlowPayload, sortFlowDesc]
  have h2 : (mock_etf_flows etfRand0).eth.history.length = 60 := by
    simp [mock_etf_flows, mock_etf_history]
  refine ⟨h1, h2, fun heq => ?_⟩
  have h3 : ((get_etf_flows_body
      (EtfOutcome.payloads okFlowPayload upgradeFlowPayload
        emptyListPayload emptyListPayload) etfRand0).eth.history).length =
      ((mock_etf_flows etfRand0).eth.history).length := by rw [heq]
  rw [h1, h2] at h3
  simp at h3
